import Mathlib

/-
Verification of the watermark image service's orchestration and caching layer.

The Go source is shallowly embedded: byte payloads are lists of naturals,
wall-clock instants are naturals, the Redis store is an association list of
(key, payload, expiry) entries, and the local filesystem cache is an
association list of (path, payload, modification-time) entries.  Transport
faults of the external collaborators (Redis, S3) are injected through explicit
boolean parameters; every other behaviour is translated directly from the
corresponding Go function.
-/

/-- Byte payloads (`[]byte` in Go) are modelled as lists of naturals. -/
abbrev Bytes := List Nat

/-- `service.ProcessRequest` from `internal/service/image_service.go`:
identifier, watermark weight and dimensions.  The Go `float64` weight is
modelled as a rational number. -/
structure ProcessRequest where
  imageID : String
  weight : ℚ
  dimensions : String
deriving DecidableEq, Repr

/-- A single decimal digit character, as produced by Go's number
formatting. -/
def digitChar (d : Nat) : Char :=
  if d = 0 then '0' else if d = 1 then '1' else if d = 2 then '2'
  else if d = 3 then '3' else if d = 4 then '4' else if d = 5 then '5'
  else if d = 6 then '6' else if d = 7 then '7' else if d = 8 then '8'
  else '9'

/-- Decimal digit expansion of a natural number (most significant first),
with explicit fuel so the recursion is structural; `natStr` below always
supplies sufficient fuel. -/
def natDigitsAux : Nat → Nat → List Char
  | 0, _ => []
  | fuel + 1, n =>
      if n < 10 then [digitChar n]
      else natDigitsAux fuel (n / 10) ++ [digitChar (n % 10)]

/-- Decimal rendering of a natural number. -/
def natStr (n : Nat) : String :=
  String.mk (natDigitsAux (n + 1) n)

/-- Exactly-two-digit rendering of a natural number below 100. -/
def twoDigitStr (m : Nat) : String :=
  String.mk [digitChar (m / 10), digitChar (m % 10)]

/-- The weight scaled to hundredths and rounded to the nearest integer
(halves towards positive infinity): `⌊100q + 1/2⌋`, computed on the
numerator and denominator with integer floor division. -/
def hundredths (q : ℚ) : ℤ :=
  (200 * q.num + (q.den : ℤ)).fdiv (2 * (q.den : ℤ))

/-- Go's `%.2f` formatting of the weight, modelled on rationals: round the
value to the nearest hundredth and print sign, integer part, a dot and two
fractional digits.  (Exact tie-breaking of IEEE-754 `%.2f` and the sign of a
negative value that rounds to zero are not distinguished by any claim.) -/
def fmt2f (q : ℚ) : String :=
  let n : ℤ := hundredths q
  let a : Nat := n.natAbs
  (if n < 0 then "-" else "") ++ natStr (a / 100) ++ "." ++ twoDigitStr (a % 100)

/-- `(*ImageService).generateCacheKey` from `internal/service/image_service.go`:
`fmt.Sprintf("image:%s:%.2f:%s", req.ImageID, req.Weight, req.Dimensions)`. -/
def generateCacheKey (req : ProcessRequest) : String :=
  "image:" ++ req.imageID ++ ":" ++ fmt2f req.weight ++ ":" ++ req.dimensions

/-- The rational 25/2 (= 12.5), written with an explicit constructor so the
kernel can evaluate it. -/
def wTwelveHalf : ℚ := ⟨25, 2, by decide, by decide⟩

/-- The rational 1/2. -/
def wHalf : ℚ := ⟨1, 2, by decide, by decide⟩

/-- The rational 1. -/
def wOne : ℚ := ⟨1, 1, by decide, by decide⟩


/-- The state of the remote key-value store (Redis): an association list of
entries `(key, payload, expiry instant)`.  The store's native TTL expiry is
modelled by keeping the absolute expiry instant with the entry and having
reads ignore entries whose expiry has passed. -/
structure RStore where
  entries : List (String × Bytes × Nat)
deriving DecidableEq, Repr

/-- Whether the store holds a live (unexpired) entry for `key` at instant
`now`, and its payload: the store-side behaviour of a Redis `GET`. -/
def rlookup (st : RStore) (now : Nat) (key : String) : Option Bytes :=
  match st.entries.find? (fun e => e.1 == key) with
  | some (_, data, expiry) => if now < expiry then some data else none
  | none => none

/-- `(*CacheClient).Get` from the `watermark` storage package: returns
`(nil, nil)` on `redis.Nil` (miss), `(nil, error)` on a transport fault
(injected through `fault`), and `(data, nil)` on a hit.  The result is the
Go `([]byte, error)` pair. -/
def CacheClient.Get (st : RStore) (now : Nat) (fault : Bool) (key : String) :
    Option Bytes × Option String :=
  if fault then (none, some "redis get error")
  else
    match rlookup st now key with
    | none => (none, none)
    | some data => (some data, none)

/-- `(*CacheClient).Set`: stores `value` under `key` with expiry
`now + ttl`, replacing any previous entry; a transport fault leaves the
store unchanged and reports an error.  Returns the new store and the Go
error value. -/
def CacheClient.Set (st : RStore) (now : Nat) (fault : Bool) (key : String) (value : Bytes)
    (ttl : Nat) : RStore × Option String :=
  if fault then (st, some "redis set error")
  else (⟨(key, value, now + ttl) :: st.entries.filter (fun e => !(e.1 == key))⟩, none)

/-- Fuel-bounded glob matching of a pattern against a string, as Redis
`SCAN` applies to keys: `*` matches any run of characters, `?` any single
character, and every other pattern character only itself.  (Redis
additionally supports `[...]` classes and `\` escapes; the claims about
invalidation are stated for identifiers free of glob metacharacters, where
the literal treatment agrees with Redis.)  `globMatch` supplies fuel
sufficient for the recursion to complete. -/
def globMatchAux : Nat → List Char → List Char → Bool
  | 0, _, _ => false
  | _ + 1, [], s => s.isEmpty
  | fuel + 1, p :: ps, s =>
      if p = '*' then
        globMatchAux fuel ps s ||
          (match s with
           | [] => false
           | _ :: s' => globMatchAux fuel (p :: ps) s')
      else
        match s with
        | [] => false
        | c :: s' => (p == '?' || p == c) && globMatchAux fuel ps s'

/-- Glob matching with adequate fuel. -/
def globMatch (p s : List Char) : Bool :=
  globMatchAux (p.length + s.length + 1) p s

/-- `(*CacheClient).DeleteByPattern`: `SCAN` for the keys whose name matches
`pat` (only live entries are visible to the scan), then bulk-`DEL` them,
returning the number of keys the scan enumerated — `len(keys)` in the Go
source — regardless of how many the delete removed.  `interf` models keys
removed by another actor between the scan and the delete; the third result
component is the number of entries the bulk delete actually removed
(instrumentation used to state the claims, not a value the Go function
computes).  `scanFault`/`delFault` inject transport faults; the delete is
skipped altogether when the scan matched nothing. -/
def CacheClient.DeleteByPattern (st : RStore) (now : Nat) (interf : List String)
    (scanFault delFault : Bool) (pat : String) : Except String (Nat × RStore × Nat) :=
  if scanFault then .error "failed to scan cache keys"
  else
    let keys := (st.entries.filter
      (fun e => globMatch pat.data e.1.data && decide (now < e.2.2))).map (fun e => e.1)
    let stMid : RStore := ⟨st.entries.filter (fun e => !(interf.contains e.1))⟩
    if keys.isEmpty then .ok (0, stMid, 0)
    else if delFault then .error "failed to delete cache keys"
    else
      let stFin : RStore := ⟨stMid.entries.filter (fun e => !(keys.contains e.1))⟩
      .ok (keys.length, stFin, stMid.entries.length - stFin.entries.length)

/-- `(*RedisCache).Get` from `internal/storage/redis_cache.go`: identical
shape to `CacheClient.Get` — `(nil, nil)` on `redis.Nil`, `(nil, error)` on
a fault, `(val, nil)` on a hit. -/
def RedisCache.Get (st : RStore) (now : Nat) (fault : Bool) (key : String) :
    Option Bytes × Option String :=
  if fault then (none, some ("redis GET failed for key " ++ key))
  else
    match rlookup st now key with
    | none => (none, none)
    | some val => (some val, none)

/-- The local filesystem cache directory: an association list of files
`(path, contents, last-modified instant)`. -/
abbrev FileSys := List (String × Bytes × Nat)

/-- `(*LocalCache).Get` from the `watermark-service` storage package.
`hashPath` stands for `getFilePath` (a SHA-1-derived file name; its
definition lives in the external `crypto/sha1` library, so it is kept
abstract).  The flow follows the source: a failed `os.Stat` other than
not-exists returns `(nil, err)`; a missing file is a miss `(nil, nil)`; a
file older than TTL is a miss whose stale file is best-effort removed
(`removeFault` makes the removal fail, which is logged and not propagated);
otherwise the function forwards `os.ReadFile(filePath)` unchanged.  On a
failed read `os.ReadFile` returns the non-nil — possibly empty or partial —
slice of bytes read so far together with the non-EOF error; this is
injected as `readFault = some partialData`, and the Go pair is then
`(partialData, err)` with both components non-nil.  `readFault = none`
means the read succeeds.  Returns the Go `([]byte, error)` pair and the
filesystem after the call. -/
def LocalCache.Get (hashPath : String → String) (fs : FileSys) (now ttl : Nat)
    (statFault removeFault : Bool) (readFault : Option Bytes) (key : String) :
    (Option Bytes × Option String) × FileSys :=
  let filePath := hashPath key
  if statFault then ((none, some "stat error"), fs)
  else
    match fs.find? (fun e => e.1 == filePath) with
    | none => ((none, none), fs)
    | some (_, data, modTime) =>
      if ttl < now - modTime then
        ((none, none), if removeFault then fs else fs.filter (fun e => !(e.1 == filePath)))
      else
        match readFault with
        | some partialData => ((some partialData, some "read error"), fs)
        | none => ((some data, none), fs)

/-- `processor.WatermarkOptions`: weight, dimensions and output quality. -/
structure WatermarkOptions where
  weight : ℚ
  dimensions : String
  quality : Nat
deriving DecidableEq, Repr

/-- The orchestrator's external collaborators and configuration:
`s3get` is `(*S3Client).GetObject`, `addWatermark` is
`(*WatermarkProcessor).AddWatermark` — both deterministic oracles that
either return bytes or fail — together with `config.ImageQuality` and
`config.CacheTTL`. -/
structure Env where
  s3get : String → Except String Bytes
  addWatermark : Bytes → WatermarkOptions → Except String Bytes
  imageQuality : Nat
  cacheTTL : Nat

/-- The Prometheus metric increments a single `ProcessImage` call performs:
`image_cache_hits_total`, `image_cache_misses_total`, the S3 and transform
invocation counts (instrumentation for the claims), and the number of
observations of the `image_processing_duration_seconds` histogram. -/
structure Counters where
  hits : Nat
  misses : Nat
  s3Calls : Nat
  transformCalls : Nat
  durObs : Nat
deriving DecidableEq, Repr

deriving instance DecidableEq for Except

/-- Result of one `ProcessImage` call: the returned `([]byte, error)` value,
the cache-store state after the call, and the metric increments. -/
structure PIResult where
  result : Except String Bytes
  state : RStore
  counters : Counters
deriving DecidableEq, Repr

/-- The compute part of the miss path of `ProcessImage`: download from S3,
then add the watermark, propagating either failure with the wrapping
messages of the source. -/
def missCompute (env : Env) (req : ProcessRequest) : Except String Bytes :=
  match env.s3get req.imageID with
  | .error e => .error ("failed to download from S3: " ++ e)
  | .ok imageData =>
    match env.addWatermark imageData ⟨req.weight, req.dimensions, env.imageQuality⟩ with
    | .error e => .error ("failed to process image: " ++ e)
    | .ok processed => .ok processed

/-- `(*ImageService).ProcessImage` from `internal/service/image_service.go`.
The deferred `processingDuration.Observe` runs on every return path, so
`durObs = 1` in every branch.  A cache `Get` error (`gFault`) is logged and
the returned `nil` payload drops through to the miss path; a cache `Set`
error is logged and swallowed.  `ctxCancelled` models the caller's context
being cancelled after the transform: the `Set` — issued synchronously with
the caller's `ctx` — then fails, which is likewise swallowed. -/
def ProcessImage (env : Env) (gFault sFault ctxCancelled : Bool) (st : RStore) (now : Nat)
    (req : ProcessRequest) : PIResult :=
  let cacheKey := generateCacheKey req
  let cached := (CacheClient.Get st now gFault cacheKey).1
  match cached with
  | some data =>
      { result := .ok data, state := st,
        counters := { hits := 1, misses := 0, s3Calls := 0, transformCalls := 0, durObs := 1 } }
  | none =>
      match env.s3get req.imageID with
      | .error e =>
          { result := .error ("failed to download from S3: " ++ e), state := st,
            counters := { hits := 0, misses := 1, s3Calls := 1, transformCalls := 0, durObs := 1 } }
      | .ok imageData =>
        match env.addWatermark imageData ⟨req.weight, req.dimensions, env.imageQuality⟩ with
        | .error e =>
            { result := .error ("failed to process image: " ++ e), state := st,
              counters := { hits := 0, misses := 1, s3Calls := 1, transformCalls := 1, durObs := 1 } }
        | .ok processed =>
            { result := .ok processed,
              state := (CacheClient.Set st now (sFault || ctxCancelled) cacheKey processed
                env.cacheTTL).1,
              counters := { hits := 0, misses := 1, s3Calls := 1, transformCalls := 1, durObs := 1 } }

/-- `(*ImageService).InvalidateCache`: build the pattern
`image:<imageID>:*`, delegate to `CacheClient.DeleteByPattern`, wrap its
error or log the count and return `nil`.  The count is only logged in the
source; it is exposed here as the third component so the claims can speak
about it. -/
def InvalidateCache (st : RStore) (now : Nat) (interf : List String)
    (scanFault delFault : Bool) (imageID : String) : Except String Unit × RStore × Nat :=
  let pat := "image:" ++ imageID ++ ":*"
  match CacheClient.DeleteByPattern st now interf scanFault delFault pat with
  | .error e => (.error ("failed to invalidate cache: " ++ e), st, 0)
  | .ok (count, stFin, _) => (.ok (), stFin, count)

/-- One sequential interleaving of the goroutines `WarmupCache` dispatches:
each task runs `ProcessImage` for its request against the store state left
by the previous task, its error consumed by logging only.  Returns the
final store and the per-task outcomes in dispatch order. -/
def runWarmupTasks (env : Env) (gF sF cc : Bool) (now : Nat) :
    RStore → List ProcessRequest → RStore × List (Except String Bytes)
  | st, [] => (st, [])
  | st, r :: rs =>
    let pr := ProcessImage env gF sF cc st now r
    let rest := runWarmupTasks env gF sF cc now pr.state rs
    (rest.1, pr.result :: rest.2)

/-- `(*ImageService).WarmupCache`: spawn one fire-and-forget goroutine per
request and return `nil` immediately.  The first component is the value the
Go function returns to its caller (always `nil`, independently of the
tasks); the second is the dispatched tasks' sequential execution as
modelled by `runWarmupTasks`. -/
def WarmupCache (env : Env) (gF sF cc : Bool) (st : RStore) (now : Nat)
    (reqs : List ProcessRequest) :
    Except String Unit × (RStore × List (Except String Bytes)) :=
  (.ok (), runWarmupTasks env gF sF cc now st reqs)

/-- Boolean test that the first character list is an initial segment of the
second. -/
def isPrefixList : List Char → List Char → Bool
  | [], _ => true
  | _ :: _, [] => false
  | a :: as, b :: bs => a == b && isPrefixList as bs

/-- A cache key is namespaced under an identifier when it starts with
`image:<identifier>:` — the namespacing scheme of `generateCacheKey` and of
the invalidation pattern. -/
def namespacedUnder (ident key : String) : Bool :=
  isPrefixList ("image:" ++ ident ++ ":").data key.data

/-- A string free of the glob metacharacters of Redis patterns. -/
def globFree (s : String) : Prop :=
  ∀ c ∈ s.data, c ≠ '*' ∧ c ≠ '?' ∧ c ≠ '[' ∧ c ≠ ']' ∧ c ≠ '\\'

/-- A character list free of the wildcards `globMatchAux` treats
specially. -/
def noWildcard (l : List Char) : Prop :=
  ∀ c ∈ l, c ≠ '*' ∧ c ≠ '?'

/-- Whether a Go-style result is an error. -/
def exceptIsErr {ε α : Type} : Except ε α → Bool
  | .error _ => true
  | .ok _ => false

/-- Concrete environment for witnesses: S3 holds one object `"img"`, the
transformer appends a marker byte. -/
def envC : Env :=
  { s3get := fun ident => if ident = "img" then .ok [1, 2, 3] else .error "no such key"
    addWatermark := fun data _opts => .ok (data ++ [9])
    imageQuality := 90
    cacheTTL := 100 }

/-- Concrete request for witnesses. -/
def reqC : ProcessRequest := ⟨"img", wHalf, "30x20"⟩

/-- Concrete request whose blob is absent from S3. -/
def reqBad : ProcessRequest := ⟨"missing", wOne, "d"⟩

/-- A store already holding the cache entry of `reqC`. -/
def stHitC : RStore := ⟨[("image:img:0.50:30x20", [7], 100)]⟩

/-- A store holding one entry under identifier `"a"` and one under
`"b"`. -/
def stTwoC : RStore :=
  ⟨[(generateCacheKey ⟨"a", wOne, "d"⟩, [1], 100), (generateCacheKey ⟨"b", wOne, "d"⟩, [2], 100)]⟩

/-- Stand-in for `getFilePath` in witnesses. -/
def hashPathC : String → String := fun key => key ++ ".jpg"

/-- A filesystem holding one stale cache file (modified at instant 0). -/
def fsOldC : FileSys := [("k.jpg", [5], 0)]

/-- The list of keys the `SCAN` of `DeleteByPattern` enumerates for a
pattern: the keys of the live entries whose name matches. -/
def scanKeys (st : RStore) (now : Nat) (pat : String) : List String :=
  (st.entries.filter (fun e => globMatch pat.data e.1.data && decide (now < e.2.2))).map
    (fun e => e.1)

example : generateCacheKey ⟨"photo-42", wTwelveHalf, "30x20x15"⟩ =
    "image:photo-42:12.50:30x20x15" := by decide

example : fmt2f wHalf = "0.50" := by decide

example : fmt2f wOne = "1.00" := by decide

/-- C2: `ProcessImage` returns an error iff the S3 fetch or the transform
fails: its result equals the cached payload on a hit and the pure miss-path
computation otherwise; a cache `Get` fault yields a `nil` payload and so
drops to the miss path, and no cache `Set` fault (including one caused by
caller cancellation) appears in the result. -/
theorem c2_error_propagation (env : Env) (gFault sFault ctxCancelled : Bool) (st : RStore)
    (now : Nat) (req : ProcessRequest) :
    (ProcessImage env gFault sFault ctxCancelled st now req).result =
      (match (CacheClient.Get st now gFault (generateCacheKey req)).1 with
       | some data => .ok data
       | none => missCompute env req) ∧
    exceptIsErr (ProcessImage env gFault sFault ctxCancelled st now req).result =
      ((CacheClient.Get st now gFault (generateCacheKey req)).1.isNone &&
        exceptIsErr (missCompute env req)) := by
  simp only [ProcessImage, missCompute]
  cases hc : (CacheClient.Get st now gFault (generateCacheKey req)).1 with
  | some d => simp [hc, exceptIsErr]
  | none =>
    cases hs : env.s3get req.imageID with
    | error e => simp [hc, hs, exceptIsErr]
    | ok d =>
      cases hw : env.addWatermark d ⟨req.weight, req.dimensions, env.imageQuality⟩ <;>
        simp [hc, hs, hw, exceptIsErr]

/-- C8 counterexample: a `ProcessImage` call that hits the cache still
observes the duration histogram — the deferred observation runs on every
return path — contradicting the claim that on a hit only the cache-hit
counter is recorded and the histogram is left unchanged. -/
theorem c8_counterexample :
    (ProcessImage envC false false false stHitC 5 reqC).counters.hits = 1 ∧
    (ProcessImage envC false false false stHitC 5 reqC).counters.durObs ≠ 0 := by decide

/-- C8 amended: the duration histogram is observed exactly once on every
`ProcessImage` call (it times the whole call, not the transform alone);
exactly one of the hit/miss counters is recorded per call; a hit performs
no S3 fetch and no transform, and a miss performs the S3 fetch. -/
theorem c8_amended_histogram (env : Env) (gF sF cc : Bool) (st : RStore) (now : Nat)
    (req : ProcessRequest) :
    (ProcessImage env gF sF cc st now req).counters.durObs = 1 ∧
    (ProcessImage env gF sF cc st now req).counters.hits +
      (ProcessImage env gF sF cc st now req).counters.misses = 1 ∧
    ((ProcessImage env gF sF cc st now req).counters.hits = 1 →
      (ProcessImage env gF sF cc st now req).counters.s3Calls = 0 ∧
      (ProcessImage env gF sF cc st now req).counters.transformCalls = 0) ∧
    ((ProcessImage env gF sF cc st now req).counters.misses = 1 →
      (ProcessImage env gF sF cc st now req).counters.s3Calls = 1) := by
  simp only [ProcessImage]
  cases hc : (CacheClient.Get st now gF (generateCacheKey req)).1 with
  | some d => simp [hc]
  | none =>
    cases hs : env.s3get req.imageID with
    | error e => simp [hc, hs]
    | ok d =>
      cases hw : env.addWatermark d ⟨req.weight, req.dimensions, env.imageQuality⟩ <;>
        simp [hc, hs, hw]

/-- Witness for the amended C8 at a concrete hit. -/
theorem c8_amended_witness :
    (ProcessImage envC false false false stHitC 5 reqC).counters.durObs = 1 ∧
    (ProcessImage envC false false false stHitC 5 reqC).counters.s3Calls = 0 :=
  ⟨(c8_amended_histogram envC false false false stHitC 5 reqC).1,
   ((c8_amended_histogram envC false false false stHitC 5 reqC).2.2.1 (by decide)).1⟩

/-- C9 counterexample: with the caller's context cancelled after the
transform, the synchronous cache-set — issued with that same context —
fails, so the successfully computed result is discarded from the cache
(the store is unchanged and a later lookup misses), contradicting the
claim that the set runs with a fresh lifetime independent of caller
cancellation. -/
theorem c9_counterexample :
    (ProcessImage envC false false true ⟨[]⟩ 0 reqC).result = .ok [1, 2, 3, 9] ∧
    (ProcessImage envC false false true ⟨[]⟩ 0 reqC).state = ⟨[]⟩ ∧
    rlookup (ProcessImage envC false false true ⟨[]⟩ 0 reqC).state 1
      (generateCacheKey reqC) = none := by decide

/-- C9 amended: the cache-set runs synchronously on the caller's critical
path with the caller's context; if that context is cancelled by set time,
the set fails and the entry is not stored, but the failure is swallowed
and the transformed bytes are still returned. -/
theorem c9_amended_set_on_caller_context (env : Env) (gF sF : Bool) (st : RStore)
    (now : Nat) (req : ProcessRequest) (b : Bytes)
    (hok : missCompute env req = .ok b)
    (hmiss : (CacheClient.Get st now gF (generateCacheKey req)).1 = none) :
    (ProcessImage env gF sF true st now req).result = .ok b ∧
    (ProcessImage env gF sF true st now req).state = st := by
  simp only [ProcessImage, hmiss]
  cases hs : env.s3get req.imageID with
  | error e =>
    simp only [missCompute, hs] at hok
    exact absurd hok (by simp)
  | ok d =>
    cases hw : env.addWatermark d ⟨req.weight, req.dimensions, env.imageQuality⟩ with
    | error e =>
      simp only [missCompute, hs, hw] at hok
      exact absurd hok (by simp)
    | ok p =>
      simp only [missCompute, hs, hw, Except.ok.injEq] at hok
      subst hok
      simp [hs, hw, CacheClient.Set]

/-- Witness for the amended C9 at a concrete input. -/
theorem c9_amended_witness :
    (ProcessImage envC false false true stTwoC 0 reqC).result = .ok [1, 2, 3, 9] ∧
    (ProcessImage envC false false true stTwoC 0 reqC).state = stTwoC :=
  c9_amended_set_on_caller_context envC false false stTwoC 0 reqC [1, 2, 3, 9]
    (by decide) (by decide)

/-- C10 counterexample: `LocalCache.Get` can return a non-nil payload
together with a non-nil error — the final `return os.ReadFile(filePath)`
forwards the bytes read so far alongside a failed read's error — so the
claimed never-both postcondition does not hold for every backend.  Here a
fresh cache file is read, the read fails after one byte, and the Go pair is
`([1], err)`. -/
theorem c10_counterexample :
    (LocalCache.Get hashPathC fsOldC 5 10 false false (some [1]) "k").1 =
      (some [1], some "read error") ∧
    (some [1] : Option Bytes) ≠ none := by decide

/-- C10 amended: the remote backends' `Get` — `CacheClient`, the backend
the orchestrator uses, and `RedisCache` — never return a payload alongside
an error and report exactly the store lookup with no error when fault-free,
in particular `(nil, nil)` on a pure miss; `LocalCache.Get` returns
`(nil, nil)` on a missing file and never returns payload and error
together on any path on which the file read does not fail, but its read
path forwards `os.ReadFile`, which can return both (see the
counterexample). -/
theorem c10_amended_backend_get_contract (st : RStore) (fs : FileSys)
    (hashPath : String → String) (now ttl : Nat) (f statF remF : Bool)
    (readF : Option Bytes) (key : String) :
    ((CacheClient.Get st now f key).2.isSome → (CacheClient.Get st now f key).1 = none) ∧
    (CacheClient.Get st now false key).1 = rlookup st now key ∧
    (CacheClient.Get st now false key).2 = none ∧
    ((RedisCache.Get st now f key).2.isSome → (RedisCache.Get st now f key).1 = none) ∧
    (RedisCache.Get st now false key).1 = rlookup st now key ∧
    (RedisCache.Get st now false key).2 = none ∧
    ((LocalCache.Get hashPath fs now ttl statF remF none key).1.2.isSome →
      (LocalCache.Get hashPath fs now ttl statF remF none key).1.1 = none) ∧
    (fs.find? (fun e => e.1 == hashPath key) = none →
      (LocalCache.Get hashPath fs now ttl false remF readF key).1 = (none, none)) := by
  refine ⟨?_, ?_, ?_, ?_, ?_, ?_, ?_, ?_⟩
  · unfold CacheClient.Get
    cases f with
    | true => simp
    | false => cases rlookup st now key <;> simp
  · unfold CacheClient.Get
    cases rlookup st now key <;> simp
  · unfold CacheClient.Get
    cases rlookup st now key <;> simp
  · unfold RedisCache.Get
    cases f with
    | true => simp
    | false => cases rlookup st now key <;> simp
  · unfold RedisCache.Get
    cases rlookup st now key <;> simp
  · unfold RedisCache.Get
    cases rlookup st now key <;> simp
  · unfold LocalCache.Get
    cases statF with
    | true => simp
    | false =>
      cases hf : fs.find? (fun e => e.1 == hashPath key) with
      | none => simp [hf]
      | some ent =>
        obtain ⟨p, data, modTime⟩ := ent
        by_cases hexp : ttl < now - modTime
        · simp [hf, hexp]
        · simp [hf, hexp]
  · intro hf
    unfold LocalCache.Get
    simp [hf]

/-- Witness for the amended C10, discharging each conditional part at
concrete inputs: a faulted remote get, a faulted stat on the local cache
with a succeeding read, and a missing local file. -/
theorem c10_amended_witness :
    (CacheClient.Get stHitC 0 true "k").1 = none ∧
    (LocalCache.Get hashPathC [] 0 10 true false none "k").1.1 = none ∧
    (LocalCache.Get hashPathC [] 0 10 false false none "k").1 = (none, none) :=
  ⟨(c10_amended_backend_get_contract stHitC [] hashPathC 0 10 true true false none "k").1
      (by decide),
   (c10_amended_backend_get_contract stHitC [] hashPathC 0 10 true true false none
      "k").2.2.2.2.2.2.1 (by decide),
   (c10_amended_backend_get_contract stHitC [] hashPathC 0 10 true false false none
      "k").2.2.2.2.2.2.2 (by decide)⟩

/-- C5: on the local-filesystem cache, a `Get` whose file is older than TTL
reports absent with no error; the stale file is removed when the removal
succeeds, and when the removal fails the filesystem is left unchanged while
the read still reports absent. -/
theorem c5_local_ttl_expiry (hashPath : String → String) (fs : FileSys) (now ttl : Nat)
    (removeFault : Bool) (readFault : Option Bytes) (key : String) (ent : String × Bytes × Nat)
    (hfind : fs.find? (fun e => e.1 == hashPath key) = some ent)
    (hold : ttl < now - ent.2.2) :
    (LocalCache.Get hashPath fs now ttl false removeFault readFault key).1 = (none, none) ∧
    (removeFault = false →
      (LocalCache.Get hashPath fs now ttl false removeFault readFault key).2 =
        fs.filter (fun e => !(e.1 == hashPath key))) ∧
    (removeFault = true →
      (LocalCache.Get hashPath fs now ttl false removeFault readFault key).2 = fs) := by
  obtain ⟨p, data, modTime⟩ := ent
  simp only [LocalCache.Get, hfind, Bool.false_eq_true, if_false]
  simp only at hold
  cases removeFault <;> simp [hold]

/-- Witness for C5 on a concrete stale file. -/
theorem c5_witness :
    (LocalCache.Get hashPathC fsOldC 200 10 false false none "k").1 = (none, none) ∧
    (LocalCache.Get hashPathC fsOldC 200 10 false false none "k").2 =
      fsOldC.filter (fun e => !(e.1 == hashPathC "k")) :=
  ⟨(c5_local_ttl_expiry hashPathC fsOldC 200 10 false none "k" ("k.jpg", [5], 0)
      (by decide) (by decide)).1,
   (c5_local_ttl_expiry hashPathC fsOldC 200 10 false none "k" ("k.jpg", [5], 0)
      (by decide) (by decide)).2.1 rfl⟩

/-- C3 counterexample: two requests that differ in identifier (and in every
field) share one cache key, because the `:`-separated format is not
injective when identifiers or dimensions themselves contain `:`. -/
theorem c3_counterexample :
    generateCacheKey ⟨"a", wHalf, "1.00:x"⟩ = generateCacheKey ⟨"a:0.50", wOne, "x"⟩ ∧
    (⟨"a", wHalf, "1.00:x"⟩ : ProcessRequest) ≠ ⟨"a:0.50", wOne, "x"⟩ := by decide

/-- C4 counterexample: invalidating identifier `"a"` deletes the cache
entry of identifier `"a:x"` — a key namespaced under a different
identifier — because the pattern `image:a:*` also covers nested
identifiers containing `:`. -/
theorem c4_counterexample :
    InvalidateCache ⟨[(generateCacheKey ⟨"a:x", wOne, "d"⟩, [1], 100)]⟩ 0 [] false false "a" =
      (.ok (), ⟨[]⟩, 1) ∧
    namespacedUnder "a:x" (generateCacheKey ⟨"a:x", wOne, "d"⟩) = true ∧
    ("a:x" : String) ≠ "a" := by decide

/-- C6 counterexample: with one key removed by another actor between the
scan and the bulk delete, `DeleteByPattern` returns 1 — the scan's
enumeration — although the bulk delete removed 0 keys, contradicting the
claim that the count reflects only the keys actually deleted. -/
theorem c6_counterexample :
    CacheClient.DeleteByPattern ⟨[("image:a:1.00:x", [1], 100)]⟩ 0 ["image:a:1.00:x"]
      false false "image:a:*" = .ok (1, ⟨[]⟩, 0) ∧ (1 : Nat) ≠ 0 := by decide

/-- A lookup that yields a payload at one instant yields the same payload
at any instant at which the entry is still live. -/
theorem rlookup_stable (st : RStore) (t0 t1 : Nat) (key : String) (d : Bytes)
    (h0 : rlookup st t0 key = some d) (h1 : (rlookup st t1 key).isSome = true) :
    rlookup st t1 key = some d := by
  unfold rlookup at h0 h1 ⊢
  cases hf : st.entries.find? (fun e => e.1 == key) with
  | none => rw [hf] at h0; exact absurd h0 (by simp)
  | some ent =>
    obtain ⟨k, dd, exp⟩ := ent
    rw [hf] at h0 h1
    by_cases ht1 : t1 < exp
    · by_cases ht0 : t0 < exp
      · simp only [ht0, if_true] at h0
        simp [ht1, h0]
      · simp [ht0] at h0
    · simp [ht1] at h1

/-- Lookup of a key right after a successful `Set` of that key. -/
theorem rlookup_set_self (st : RStore) (t0 t : Nat) (key : String) (v : Bytes) (ttl : Nat) :
    rlookup (CacheClient.Set st t0 false key v ttl).1 t key =
      if t < t0 + ttl then some v else none := by
  simp [CacheClient.Set, rlookup]

/-- C1: after a prior successful `ProcessImage` for the same request, while
the cached entry is still within TTL, a second `ProcessImage` returns
byte-identical output as a cache hit, invoking neither S3 nor the
transformer. -/
theorem c1_cache_aside (env : Env) (st : RStore) (t0 t1 : Nat) (req : ProcessRequest)
    (b : Bytes)
    (h1 : (ProcessImage env false false false st t0 req).result = .ok b)
    (hlive : (rlookup (ProcessImage env false false false st t0 req).state t1
      (generateCacheKey req)).isSome = true) :
    (ProcessImage env false false false (ProcessImage env false false false st t0 req).state
        t1 req).result = .ok b ∧
    (ProcessImage env false false false (ProcessImage env false false false st t0 req).state
        t1 req).counters.s3Calls = 0 ∧
    (ProcessImage env false false false (ProcessImage env false false false st t0 req).state
        t1 req).counters.transformCalls = 0 ∧
    (ProcessImage env false false false (ProcessImage env false false false st t0 req).state
        t1 req).counters.hits = 1 := by
  cases h0 : rlookup st t0 (generateCacheKey req) with
  | some d =>
    have hfirst : ProcessImage env false false false st t0 req =
        { result := .ok d, state := st, counters := ⟨1, 0, 0, 0, 1⟩ } := by
      simp [ProcessImage, CacheClient.Get, h0]
    rw [hfirst] at h1 hlive ⊢
    simp only [Except.ok.injEq] at h1
    subst h1
    have h2 : rlookup st t1 (generateCacheKey req) = some d :=
      rlookup_stable st t0 t1 (generateCacheKey req) d h0 hlive
    simp [ProcessImage, CacheClient.Get, h2]
  | none =>
    cases hs : env.s3get req.imageID with
    | error e =>
      have hfirst : (ProcessImage env false false false st t0 req).result =
          .error ("failed to download from S3: " ++ e) := by
        simp [ProcessImage, CacheClient.Get, h0, hs]
      rw [hfirst] at h1
      exact absurd h1 (by simp)
    | ok img =>
      cases hw : env.addWatermark img ⟨req.weight, req.dimensions, env.imageQuality⟩ with
      | error e =>
        have hfirst : (ProcessImage env false false false st t0 req).result =
            .error ("failed to process image: " ++ e) := by
          simp [ProcessImage, CacheClient.Get, h0, hs, hw]
        rw [hfirst] at h1
        exact absurd h1 (by simp)
      | ok p =>
        have hfirst : ProcessImage env false false false st t0 req =
            { result := .ok p,
              state := (CacheClient.Set st t0 false (generateCacheKey req) p env.cacheTTL).1,
              counters := ⟨0, 1, 1, 1, 1⟩ } := by
          simp [ProcessImage, CacheClient.Get, h0, hs, hw]
        rw [hfirst] at h1 hlive ⊢
        simp only [Except.ok.injEq] at h1
        subst h1
        rw [rlookup_set_self] at hlive
        by_cases ht : t1 < t0 + env.cacheTTL
        · have h2 : rlookup (CacheClient.Set st t0 false (generateCacheKey req) p
              env.cacheTTL).1 t1 (generateCacheKey req) = some p := by
            rw [rlookup_set_self]
            simp [ht]
          simp [ProcessImage, CacheClient.Get, h2]
        · simp [ht] at hlive

/-- Witness for C1: a cold store, a successful first call at instant 0 and
a second call at instant 1 within the TTL of 100. -/
theorem c1_witness :
    (ProcessImage envC false false false (ProcessImage envC false false false ⟨[]⟩ 0 reqC).state
        1 reqC).result = .ok [1, 2, 3, 9] ∧
    (ProcessImage envC false false false (ProcessImage envC false false false ⟨[]⟩ 0 reqC).state
        1 reqC).counters.s3Calls = 0 ∧
    (ProcessImage envC false false false (ProcessImage envC false false false ⟨[]⟩ 0 reqC).state
        1 reqC).counters.transformCalls = 0 ∧
    (ProcessImage envC false false false (ProcessImage envC false false false ⟨[]⟩ 0 reqC).state
        1 reqC).counters.hits = 1 :=
  c1_cache_aside envC ⟨[]⟩ 0 1 reqC [1, 2, 3, 9] (by decide) (by decide)

/-- A `ProcessImage` call that fails leaves the cache store unchanged. -/
theorem processImage_err_state (env : Env) (gF sF cc : Bool) (st : RStore) (now : Nat)
    (req : ProcessRequest)
    (h : exceptIsErr (ProcessImage env gF sF cc st now req).result = true) :
    (ProcessImage env gF sF cc st now req).state = st := by
  simp only [ProcessImage] at h ⊢
  cases hc : (CacheClient.Get st now gF (generateCacheKey req)).1 with
  | some d => simp [hc, exceptIsErr] at h
  | none =>
    cases hs : env.s3get req.imageID with
    | error e => simp [hc, hs]
    | ok d =>
      cases hw : env.addWatermark d ⟨req.weight, req.dimensions, env.imageQuality⟩ with
      | error e => simp [hc, hs, hw]
      | ok p => simp [hc, hs, hw, exceptIsErr] at h

/-- Splitting a sequential warmup run at a list append. -/
theorem runWarmupTasks_append (env : Env) (gF sF cc : Bool) (now : Nat) (st : RStore)
    (l1 l2 : List ProcessRequest) :
    runWarmupTasks env gF sF cc now st (l1 ++ l2) =
      ((runWarmupTasks env gF sF cc now (runWarmupTasks env gF sF cc now st l1).1 l2).1,
       (runWarmupTasks env gF sF cc now st l1).2 ++
         (runWarmupTasks env gF sF cc now (runWarmupTasks env gF sF cc now st l1).1 l2).2) := by
  induction l1 generalizing st with
  | nil => simp [runWarmupTasks]
  | cons r rs ih => simp [runWarmupTasks, ih]

/-- A warmup run yields one task outcome per dispatched request. -/
theorem runWarmupTasks_length (env : Env) (gF sF cc : Bool) (now : Nat) (st : RStore)
    (reqs : List ProcessRequest) :
    (runWarmupTasks env gF sF cc now st reqs).2.length = reqs.length := by
  induction reqs generalizing st with
  | nil => simp [runWarmupTasks]
  | cons r rs ih => simp [runWarmupTasks, ih]

/-- C7: `WarmupCache` returns `nil` regardless of task outcomes, dispatches
one task per request, and isolates per-item failure: a task whose
`ProcessImage` fails leaves the store exactly as if the request had not
been in the batch, its failure visible only in its own task outcome, with
the sibling tasks' outcomes unchanged. -/
theorem c7_warmup_isolation (env : Env) (gF sF cc : Bool) (st : RStore) (now : Nat)
    (l1 l2 : List ProcessRequest) (r : ProcessRequest)
    (hfail : exceptIsErr (ProcessImage env gF sF cc
      (runWarmupTasks env gF sF cc now st l1).1 now r).result = true) :
    (WarmupCache env gF sF cc st now (l1 ++ r :: l2)).1 = .ok () ∧
    (runWarmupTasks env gF sF cc now st (l1 ++ r :: l2)).1 =
      (runWarmupTasks env gF sF cc now st (l1 ++ l2)).1 ∧
    (runWarmupTasks env gF sF cc now st (l1 ++ r :: l2)).2 =
      (runWarmupTasks env gF sF cc now st l1).2 ++
        (ProcessImage env gF sF cc (runWarmupTasks env gF sF cc now st l1).1 now r).result ::
          (runWarmupTasks env gF sF cc now (runWarmupTasks env gF sF cc now st l1).1 l2).2 ∧
    (runWarmupTasks env gF sF cc now st (l1 ++ l2)).2 =
      (runWarmupTasks env gF sF cc now st l1).2 ++
        (runWarmupTasks env gF sF cc now (runWarmupTasks env gF sF cc now st l1).1 l2).2 ∧
    (runWarmupTasks env gF sF cc now st (l1 ++ r :: l2)).2.length = (l1 ++ r :: l2).length := by
  refine ⟨rfl, ?_, ?_, ?_, runWarmupTasks_length env gF sF cc now st (l1 ++ r :: l2)⟩
  · rw [runWarmupTasks_append, runWarmupTasks_append]
    simp only [runWarmupTasks]
    rw [processImage_err_state env gF sF cc (runWarmupTasks env gF sF cc now st l1).1 now r
      hfail]
  · rw [runWarmupTasks_append]
    simp only [runWarmupTasks]
    rw [processImage_err_state env gF sF cc (runWarmupTasks env gF sF cc now st l1).1 now r
      hfail]
  · rw [runWarmupTasks_append]

/-- Witness for C7: a failing first request (`reqBad`, absent from S3)
followed by a succeeding one. -/
theorem c7_witness :
    (WarmupCache envC false false false ⟨[]⟩ 0 (reqBad :: [reqC])).1 = .ok () ∧
    (runWarmupTasks envC false false false 0 ⟨[]⟩ (reqBad :: [reqC])).1 =
      (runWarmupTasks envC false false false 0 ⟨[]⟩ [reqC]).1 ∧
    (runWarmupTasks envC false false false 0 ⟨[]⟩ (reqBad :: [reqC])).2 =
      (ProcessImage envC false false false ⟨[]⟩ 0 reqBad).result ::
        (runWarmupTasks envC false false false 0 ⟨[]⟩ [reqC]).2 ∧
    (runWarmupTasks envC false false false 0 ⟨[]⟩ [reqC]).2 =
      (runWarmupTasks envC false false false 0 ⟨[]⟩ [reqC]).2 ∧
    (runWarmupTasks envC false false false 0 ⟨[]⟩ (reqBad :: [reqC])).2.length =
      (reqBad :: [reqC]).length :=
  c7_warmup_isolation envC false false false ⟨[]⟩ 0 [] [reqC] reqBad (by decide)

/-- Digit characters are never the colon separator. -/
theorem digitChar_ne_colon (d : Nat) : digitChar d ≠ ':' := by
  unfold digitChar
  repeat' split
  all_goals decide

/-- Decimal digit expansions never contain the colon separator. -/
theorem natDigitsAux_no_colon (fuel : Nat) : ∀ n, ':' ∉ natDigitsAux fuel n := by
  induction fuel with
  | zero => intro n; simp [natDigitsAux]
  | succ f ih =>
    intro n
    by_cases h : n < 10
    · simp only [natDigitsAux, h, if_true, List.mem_singleton]
      intro hc
      exact digitChar_ne_colon n hc.symm
    · simp only [natDigitsAux, h, if_false]
      intro hc
      rcases List.mem_append.mp hc with hc | hc
      · exact ih (n / 10) hc
      · rw [List.mem_singleton] at hc
        exact digitChar_ne_colon (n % 10) hc.symm

/-- The formatted weight never contains the colon separator. -/
theorem fmt2f_no_colon (q : ℚ) : ':' ∉ (fmt2f q).data := by
  unfold fmt2f
  intro hc
  by_cases hneg : hundredths q < 0 <;>
    simp only [hneg, if_true, if_false, String.data_append, List.mem_append] at hc <;>
    [rcases hc with ((hc | hc) | hc) | hc; rcases hc with ((hc | hc) | hc) | hc] <;>
    first
      | exact absurd hc (by decide)
      | exact natDigitsAux_no_colon _ _ (by simpa [natStr] using hc)
      | (have hc2 : ':' = digitChar ((hundredths q).natAbs % 100 / 10) ∨
            ':' = digitChar ((hundredths q).natAbs % 100 % 10) := by
            simpa [twoDigitStr] using hc
         rcases hc2 with hc' | hc' <;> exact digitChar_ne_colon _ hc'.symm)

/-- Peeling two separator-free segments off equal separator-joined
lists. -/
theorem append_sep_inj (sep : Char) :
    ∀ (a b r s : List Char), sep ∉ a → sep ∉ b → a ++ sep :: r = b ++ sep :: s →
      a = b ∧ r = s := by
  intro a
  induction a with
  | nil =>
    intro b r s _ hb h
    cases b with
    | nil => simp only [List.nil_append, List.cons.injEq] at h; exact ⟨rfl, h.2⟩
    | cons x xs =>
      simp only [List.nil_append, List.cons_append, List.cons.injEq] at h
      exact absurd (h.1 ▸ List.mem_cons_self x xs) hb
  | cons x xs ih =>
    intro b r s ha hb h
    cases b with
    | nil =>
      simp only [List.nil_append, List.cons_append, List.cons.injEq] at h
      exact absurd (h.1 ▸ List.mem_cons_self x xs) ha
    | cons y ys =>
      simp only [List.cons_append, List.cons.injEq] at h
      obtain ⟨hxy, h2⟩ := h
      have ha' : sep ∉ xs := fun hm => ha (List.mem_cons_of_mem _ hm)
      have hb' : sep ∉ ys := fun hm => hb (List.mem_cons_of_mem _ hm)
      obtain ⟨h3, h4⟩ := ih ys r s ha' hb' h2
      exact ⟨by rw [hxy, h3], h4⟩

/-- The colon separator as character data. -/
theorem colon_data : (":" : String).data = [':'] := rfl

/-- C3 amended: the cache-key builder is injective on requests whose
identifiers contain no colon — such requests differing in identifier, in
the 2-decimal-formatted weight, or in dimensions always get different
keys.  (The unamended claim fails for colon-carrying identifiers and for
distinct weights that format identically at two decimals.) -/
theorem c3_amended_key_injective (r1 r2 : ProcessRequest)
    (h1 : ':' ∉ r1.imageID.data) (h2 : ':' ∉ r2.imageID.data)
    (hne : r1.imageID ≠ r2.imageID ∨ fmt2f r1.weight ≠ fmt2f r2.weight ∨
      r1.dimensions ≠ r2.dimensions) :
    generateCacheKey r1 ≠ generateCacheKey r2 := by
  intro heq
  have hd : (generateCacheKey r1).data = (generateCacheKey r2).data := by rw [heq]
  unfold generateCacheKey at hd
  simp only [String.data_append, colon_data, List.append_assoc, List.singleton_append] at hd
  have hd2 := List.append_cancel_left hd
  obtain ⟨hid, hrest⟩ := append_sep_inj ':' _ _ _ _ h1 h2 hd2
  obtain ⟨hw, hdim⟩ := append_sep_inj ':' _ _ _ _ (fmt2f_no_colon r1.weight)
    (fmt2f_no_colon r2.weight) hrest
  rcases hne with hne | hne | hne
  · exact hne (String.ext hid)
  · exact hne (String.ext hw)
  · exact hne (String.ext hdim)

/-- Witness for the amended C3 on two colon-free requests differing in
identifier. -/
theorem c3_amended_witness :
    generateCacheKey ⟨"a", wOne, "d"⟩ ≠ generateCacheKey ⟨"b", wOne, "d"⟩ :=
  c3_amended_key_injective ⟨"a", wOne, "d"⟩ ⟨"b", wOne, "d"⟩ (by decide) (by decide)
    (Or.inl (by decide))

/-- A lone `*` pattern matches everything, given adequate fuel. -/
theorem globMatchAux_star : ∀ (fuel : Nat) (s : List Char), s.length + 1 < fuel →
    globMatchAux fuel ['*'] s = true := by
  intro fuel
  induction fuel with
  | zero => intro s h; omega
  | succ f ih =>
    intro s h
    cases s with
    | nil =>
      cases f with
      | zero => omega
      | succ g => rfl
    | cons c s' =>
      have h2 : s'.length + 1 < f := by simpa using Nat.lt_of_succ_lt_succ h
      simp [globMatchAux, ih s' h2]

/-- A literal pattern followed by `*` matches exactly the strings holding
the literal as an initial segment. -/
theorem globMatchAux_literal_star : ∀ (fuel : Nat) (l s : List Char), noWildcard l →
    l.length + s.length + 1 < fuel →
    globMatchAux fuel (l ++ ['*']) s = isPrefixList l s := by
  intro fuel
  induction fuel with
  | zero => intro l s _ h; omega
  | succ f ih =>
    intro l s hw h
    cases l with
    | nil =>
      simp only [List.nil_append, isPrefixList]
      exact globMatchAux_star (f + 1) s (by simpa using h)
    | cons a l' =>
      have ha := hw a (List.mem_cons_self a l')
      have hstar : (a = '*') = False := by simp [ha.1]
      have hq : (a == '?') = false := by simp [ha.2]
      cases s with
      | nil =>
        simp only [List.cons_append, globMatchAux, hstar, if_false, isPrefixList]
      | cons c s' =>
        have hw' : noWildcard l' := fun x hx => hw x (List.mem_cons_of_mem a hx)
        have h2 : l'.length + s'.length + 1 < f := by
          simp only [List.length_cons] at h
          omega
        simp only [List.cons_append, globMatchAux, hstar, if_false, isPrefixList, hq,
          Bool.false_or]
        exact congrArg (fun b => a == c && b) (ih l' s' hw' h2)

/-- `globMatch` of `<literal>*` is the initial-segment test. -/
theorem globMatch_literal_star (l s : List Char) (hw : noWildcard l) :
    globMatch (l ++ ['*']) s = isPrefixList l s := by
  unfold globMatch
  apply globMatchAux_literal_star _ l s hw
  simp

/-- The invalidation pattern splits into its literal part and the final
wildcard. -/
theorem invalidate_pat_data (ident : String) :
    ("image:" ++ ident ++ ":*").data = ("image:" ++ ident ++ ":").data ++ ['*'] := by
  simp only [String.data_append, List.append_assoc]
  rfl

/-- The literal part of the invalidation pattern has no wildcard when the
identifier is free of glob metacharacters. -/
theorem invalidate_pat_noWildcard (ident : String) (hg : globFree ident) :
    noWildcard ("image:" ++ ident ++ ":").data := by
  intro c hc
  simp only [String.data_append, List.mem_append] at hc
  rcases hc with (hc | hc) | hc
  · simp only [show ("image:" : String).data = ['i', 'm', 'a', 'g', 'e', ':'] from rfl,
      List.mem_cons, List.not_mem_nil, or_false] at hc
    rcases hc with rfl | rfl | rfl | rfl | rfl | rfl <;> exact ⟨by decide, by decide⟩
  · exact ⟨(hg c hc).1, (hg c hc).2.1⟩
  · simp only [show (":" : String).data = [':'] from rfl, List.mem_singleton] at hc
    subst hc
    exact ⟨by decide, by decide⟩

/-- On metacharacter-free identifiers, the invalidation pattern matches a
key iff the key is namespaced under the identifier. -/
theorem globMatch_namespaced (ident key : String) (hg : globFree ident) :
    globMatch ("image:" ++ ident ++ ":*").data key.data = namespacedUnder ident key := by
  rw [invalidate_pat_data, globMatch_literal_star _ _ (invalidate_pat_noWildcard ident hg)]
  rfl

/-- A lookup hit exhibits a live entry of the store. -/
theorem rlookup_eq_some (st : RStore) (now : Nat) (k : String) (d : Bytes)
    (h : rlookup st now k = some d) :
    ∃ e ∈ st.entries, e.1 = k ∧ e.2.1 = d ∧ now < e.2.2 := by
  unfold rlookup at h
  cases hf : st.entries.find? (fun e => e.1 == k) with
  | none => rw [hf] at h; exact absurd h (by simp)
  | some ent =>
    obtain ⟨k', dd, exp⟩ := ent
    rw [hf] at h
    have hmem := List.mem_of_find?_eq_some hf
    have hpred := List.find?_some hf
    simp only [beq_iff_eq] at hpred
    by_cases hlt : now < exp
    · simp only [hlt, if_true, Option.some.injEq] at h
      exact ⟨(k', dd, exp), hmem, hpred, h, hlt⟩
    · simp [hlt] at h

/-- Filtering with a predicate that keeps every entry of a given key does
not change which entry is found for that key. -/
theorem find?_filter_keep (l : List (String × Bytes × Nat)) (q : String × Bytes × Nat → Bool)
    (k : String) (h : ∀ e ∈ l, e.1 = k → q e = true) :
    (l.filter q).find? (fun e => e.1 == k) = l.find? (fun e => e.1 == k) := by
  induction l with
  | nil => rfl
  | cons a l ih =>
    have ih' := ih (fun e he hek => h e (List.mem_cons_of_mem a he) hek)
    by_cases hak : a.1 = k
    · have hq : q a = true := h a (List.mem_cons_self a l) hak
      rw [List.filter_cons_of_pos hq, List.find?_cons_of_pos _ (by simp [hak]),
        List.find?_cons_of_pos _ (by simp [hak])]
    · by_cases hqa : q a = true
      · rw [List.filter_cons_of_pos hqa, List.find?_cons_of_neg _ (by simp [hak]),
          List.find?_cons_of_neg _ (by simp [hak]), ih']
      · rw [List.filter_cons_of_neg (by simpa using hqa),
          List.find?_cons_of_neg _ (by simp [hak]), ih']

/-- A filter and its complement partition a list's length. -/
theorem length_filter_add_not {α : Type} (l : List α) (p : α → Bool) :
    (l.filter p).length + (l.filter (fun a => !(p a))).length = l.length := by
  induction l with
  | nil => rfl
  | cons a l ih => cases hpa : p a <;> simp [List.filter_cons, hpa, ← ih] <;> omega

/-- Filtering with a pointwise-stronger predicate keeps at most as many
elements. -/
theorem length_filter_mono {α : Type} (l : List α) (p q : α → Bool)
    (h : ∀ a ∈ l, p a = true → q a = true) :
    (l.filter p).length ≤ (l.filter q).length := by
  induction l with
  | nil => simp
  | cons a l ih =>
    have ih' := ih (fun e he hpe => h e (List.mem_cons_of_mem a he) hpe)
    by_cases hpa : p a = true
    · have hqa := h a (List.mem_cons_self a l) hpa
      simp only [List.filter_cons, hpa, hqa, if_true, List.length_cons]
      omega
    · have hpa' : p a = false := by simpa using hpa
      cases hqa : q a <;> simp only [List.filter_cons, hpa', hqa, if_true, if_false,
        Bool.false_eq_true, List.length_cons] <;> omega

/-- The initial-segment test holds exactly when the list extends the
candidate by some suffix. -/
theorem isPrefixList_iff : ∀ {p l : List Char}, isPrefixList p l = true ↔ ∃ t, l = p ++ t := by
  intro p
  induction p with
  | nil => intro l; simp [isPrefixList]
  | cons a as ih =>
    intro l
    cases l with
    | nil =>
      simp only [isPrefixList, List.cons_append, Bool.false_eq_true, false_iff]
      rintro ⟨t, ht⟩
      exact List.noConfusion ht
    | cons b bs =>
      simp only [isPrefixList, Bool.and_eq_true, beq_iff_eq, List.cons_append]
      constructor
      · rintro ⟨rfl, h⟩
        obtain ⟨t, rfl⟩ := ih.mp h
        exact ⟨t, rfl⟩
      · rintro ⟨t, ht⟩
        injection ht with h1 h2
        exact ⟨h1.symm, ih.mpr ⟨t, h2⟩⟩

/-- Keys namespaced under distinct colon-free identifiers are disjoint. -/
theorem namespaced_disjoint (a b k : String) (ha : ':' ∉ a.data) (hb : ':' ∉ b.data)
    (hne : a ≠ b) (hk : namespacedUnder a k = true) : namespacedUnder b k = false := by
  by_contra h
  have hkb : namespacedUnder b k = true := by simpa using h
  unfold namespacedUnder at hk hkb
  obtain ⟨t1, ht1⟩ := isPrefixList_iff.mp hk
  obtain ⟨t2, ht2⟩ := isPrefixList_iff.mp hkb
  simp only [String.data_append, colon_data, List.append_assoc, List.singleton_append]
    at ht1 ht2
  have hcat := ht1.symm.trans ht2
  have hcancel := List.append_cancel_left hcat
  obtain ⟨hab, -⟩ := append_sep_inj ':' _ _ _ _ ha hb hcancel
  exact hne (String.ext hab)

/-- Value of a fault-free, interference-free `DeleteByPattern`: the count
is the scan enumeration's length, the surviving entries are those whose key
the scan did not enumerate, and the bulk delete removed the complement. -/
theorem deleteByPattern_eval (st : RStore) (now : Nat) (pat : String) :
    CacheClient.DeleteByPattern st now [] false false pat =
      .ok ((scanKeys st now pat).length,
        ⟨st.entries.filter (fun e => !((scanKeys st now pat).contains e.1))⟩,
        st.entries.length -
          (st.entries.filter (fun e => !((scanKeys st now pat).contains e.1))).length) := by
  unfold CacheClient.DeleteByPattern scanKeys
  cases hf : st.entries.filter (fun e => globMatch pat.data e.1.data && decide (now < e.2.2)) with
  | nil => simp [hf]
  | cons x xs => simp [hf]

/-- Value of a fault-free, interference-free `InvalidateCache` for a
metacharacter-free identifier: no error, the surviving entries are those
whose key the scan did not enumerate, and the logged count is the number of
live entries namespaced under the identifier. -/
theorem invalidateCache_eval (st : RStore) (now : Nat) (ident : String) (hg : globFree ident) :
    InvalidateCache st now [] false false ident =
      (.ok (), ⟨st.entries.filter (fun e =>
          !((scanKeys st now ("image:" ++ ident ++ ":*")).contains e.1))⟩,
        (st.entries.filter
          (fun e => namespacedUnder ident e.1 && decide (now < e.2.2))).length) := by
  unfold InvalidateCache
  simp only [deleteByPattern_eval]
  have hlen : (scanKeys st now ("image:" ++ ident ++ ":*")).length =
      (st.entries.filter (fun e => namespacedUnder ident e.1 && decide (now < e.2.2))).length := by
    unfold scanKeys
    rw [List.length_map]
    congr 1
    exact List.filter_congr (fun e _ => by rw [globMatch_namespaced _ _ hg])
  rw [hlen]

/-- C4 amended: for an identifier free of colons and glob metacharacters,
fault-free `InvalidateCache` returns no error; the count it logs (the Go
function returns only the error value — the count is logged, not returned)
is the number of live entries namespaced under the identifier, zero on an
already-empty namespace; afterwards every key namespaced under the
identifier misses, every key not namespaced under it reads as before, and
in particular all keys namespaced under any other colon-free identifier
are untouched.  (The unamended claim fails for identifiers containing
colons, whose keys are also covered by a shorter identifier's pattern.) -/
theorem c4_amended_invalidate (st : RStore) (now : Nat) (ident : String)
    (hg : globFree ident) (hcolon : ':' ∉ ident.data) :
    (InvalidateCache st now [] false false ident).1 = .ok () ∧
    (InvalidateCache st now [] false false ident).2.2 =
      (st.entries.filter (fun e => namespacedUnder ident e.1 && decide (now < e.2.2))).length ∧
    (∀ k, namespacedUnder ident k = true →
      rlookup (InvalidateCache st now [] false false ident).2.1 now k = none) ∧
    (∀ k, namespacedUnder ident k = false →
      rlookup (InvalidateCache st now [] false false ident).2.1 now k = rlookup st now k) ∧
    (∀ ident' k, ':' ∉ ident'.data → ident' ≠ ident → namespacedUnder ident' k = true →
      rlookup (InvalidateCache st now [] false false ident).2.1 now k = rlookup st now k) := by
  rw [invalidateCache_eval st now ident hg]
  have hpreserve : ∀ k, namespacedUnder ident k = false →
      rlookup ⟨st.entries.filter (fun e =>
        !((scanKeys st now ("image:" ++ ident ++ ":*")).contains e.1))⟩ now k =
      rlookup st now k := by
    intro k hns
    have hkeep : ∀ e ∈ st.entries, e.1 = k →
        (!((scanKeys st now ("image:" ++ ident ++ ":*")).contains e.1)) = true := by
      intro e hest hek
      rw [hek]
      by_cases hkmem : k ∈ scanKeys st now ("image:" ++ ident ++ ":*")
      · exfalso
        unfold scanKeys at hkmem
        obtain ⟨e', he'mem, he'k⟩ := List.mem_map.mp hkmem
        obtain ⟨-, hpred⟩ := List.mem_filter.mp he'mem
        rw [globMatch_namespaced _ _ hg] at hpred
        simp only [Bool.and_eq_true] at hpred
        have h1 := hpred.1
        rw [he'k] at h1
        exact absurd h1 (by simp [hns])
      · have hcf : (scanKeys st now ("image:" ++ ident ++ ":*")).contains k = false := by
          simpa using hkmem
        rw [hcf]
        rfl
    unfold rlookup
    rw [find?_filter_keep st.entries _ k hkeep]
  refine ⟨rfl, rfl, ?_, hpreserve, ?_⟩
  · intro k hns
    cases hl : rlookup ⟨st.entries.filter (fun e =>
        !((scanKeys st now ("image:" ++ ident ++ ":*")).contains e.1))⟩ now k with
    | none => rfl
    | some d =>
      exfalso
      obtain ⟨e, hemem, hek, -, helive⟩ := rlookup_eq_some _ now k d hl
      obtain ⟨hest, hkeep⟩ := List.mem_filter.mp hemem
      have hescan : e.1 ∈ scanKeys st now ("image:" ++ ident ++ ":*") := by
        unfold scanKeys
        apply List.mem_map_of_mem
        apply List.mem_filter.mpr
        refine ⟨hest, ?_⟩
        rw [globMatch_namespaced _ _ hg, hek, hns]
        simpa using helive
      have hct : (scanKeys st now ("image:" ++ ident ++ ":*")).contains e.1 = true := by
        simpa using hescan
      rw [hct] at hkeep
      simp at hkeep
  · intro ident' k hcolon' hne hk'
    exact hpreserve k (namespaced_disjoint ident' ident k hcolon' hcolon hne hk')

/-- Witness for the amended C4: invalidating `"a"` on a store holding one
entry under `"a"` and one under `"b"` succeeds, logs count 1, removes the
`"a"` key and leaves the `"b"` key readable. -/
theorem c4_amended_witness :
    (InvalidateCache stTwoC 0 [] false false "a").1 = .ok () ∧
    (InvalidateCache stTwoC 0 [] false false "a").2.2 = 1 ∧
    rlookup (InvalidateCache stTwoC 0 [] false false "a").2.1 0
      (generateCacheKey ⟨"a", wOne, "d"⟩) = none ∧
    rlookup (InvalidateCache stTwoC 0 [] false false "a").2.1 0
      (generateCacheKey ⟨"b", wOne, "d"⟩) =
      rlookup stTwoC 0 (generateCacheKey ⟨"b", wOne, "d"⟩) :=
  ⟨(c4_amended_invalidate stTwoC 0 "a" (by unfold globFree; decide) (by decide)).1,
   by
     rw [(c4_amended_invalidate stTwoC 0 "a" (by unfold globFree; decide) (by decide)).2.1]
     decide,
   (c4_amended_invalidate stTwoC 0 "a" (by unfold globFree; decide) (by decide)).2.2.1 _
     (by decide),
   (c4_amended_invalidate stTwoC 0 "a" (by unfold globFree; decide) (by decide)).2.2.2.2 "b" _
     (by decide) (by decide) (by decide)⟩

/-- C6 amended: a fault-free `DeleteByPattern` returns the number of keys
the `SCAN` enumerated — not the number the bulk delete removed; on a store
with distinct keys the actually-deleted count never exceeds the returned
count, and is strictly smaller when another actor deletes an enumerated
key between the scan and the bulk delete. -/
theorem c6_amended_scan_count (st : RStore) (now : Nat) (interf : List String) (pat : String)
    (c a : Nat) (st' : RStore)
    (hnd : (st.entries.map (fun e => e.1)).Nodup)
    (h : CacheClient.DeleteByPattern st now interf false false pat = .ok (c, st', a)) :
    c = (scanKeys st now pat).length ∧ a ≤ c := by
  cases hf : st.entries.filter (fun e => globMatch pat.data e.1.data && decide (now < e.2.2)) with
  | nil =>
    simp only [CacheClient.DeleteByPattern, hf, Bool.false_eq_true, if_false, List.map_nil,
      List.isEmpty_nil, if_true, Except.ok.injEq, Prod.mk.injEq] at h
    obtain ⟨hc, -, ha⟩ := h
    unfold scanKeys
    rw [hf]
    exact ⟨hc.symm, by omega⟩
  | cons x xs =>
    simp only [CacheClient.DeleteByPattern, hf, Bool.false_eq_true, if_false, List.map_cons,
      List.isEmpty_cons, Except.ok.injEq, Prod.mk.injEq] at h
    obtain ⟨hc, -, ha⟩ := h
    constructor
    · unfold scanKeys
      rw [hf, List.map_cons]
      exact hc.symm
    · have hance := length_filter_add_not (st.entries.filter (fun e => !(interf.contains e.1)))
        (fun e => (x.1 :: xs.map (fun e => e.1)).contains e.1)
      have hff : (st.entries.filter (fun e => !(interf.contains e.1))).filter
          (fun e => (x.1 :: xs.map (fun e => e.1)).contains e.1) =
          st.entries.filter (fun e => (x.1 :: xs.map (fun e => e.1)).contains e.1 &&
            !(interf.contains e.1)) := by
        rw [List.filter_filter]
      have hmono : (st.entries.filter (fun e => (x.1 :: xs.map (fun e => e.1)).contains e.1 &&
          !(interf.contains e.1))).length ≤
          (st.entries.filter
            (fun e => globMatch pat.data e.1.data && decide (now < e.2.2))).length := by
        apply length_filter_mono
        intro e hest hpe
        simp only [Bool.and_eq_true] at hpe
        have hmem : e.1 ∈ x.1 :: xs.map (fun e => e.1) := by simpa using hpe.1
        have hmem' : e.1 ∈ (x :: xs).map (fun e => e.1) := by simpa using hmem
        rw [← hf] at hmem'
        obtain ⟨e', he'mem, he'k⟩ := List.mem_map.mp hmem'
        obtain ⟨he'st, he'pred⟩ := List.mem_filter.mp he'mem
        have he'e : e' = e := List.inj_on_of_nodup_map hnd he'st hest he'k
        rw [← he'e]
        exact he'pred
      rw [hff] at hance
      rw [hf] at hmono
      have hc' : xs.length + 1 = c := by simpa using hc
      simp only [List.length_cons, List.length_map] at hmono hance
      omega

/-- Witness for the amended C6 at the interference scenario: returned
count 1, actually deleted 0. -/
theorem c6_amended_witness :
    (1 : Nat) = (scanKeys ⟨[("image:a:1.00:x", [1], 100)]⟩ 0 "image:a:*").length ∧
    (0 : Nat) ≤ 1 :=
  c6_amended_scan_count ⟨[("image:a:1.00:x", [1], 100)]⟩ 0 ["image:a:1.00:x"] "image:a:*"
    1 0 ⟨[]⟩ (by decide) (by decide)
